import Mathlib

/-!
Verification of the pixel-analysis engine of the policy-visualizer
repository: grayscale conversion, Sobel edge detection, dominant-color
clustering, the frame-to-frame motion comparator, the video frame-sampling
orchestrators, and the excluded-area management and JSON import logic.

Machine numbers of the source (JavaScript) are modelled with `Nat`, `Int`
and `Rat`.  The UI thresholds are integer-valued sliders, so thresholds are
`Nat`; comparisons of the form `Math.sqrt e > t` are embedded as
`e > t ^ 2`, which is equivalent for a nonnegative integer `t` and an
integer `e ≥ 0`.  The randomized shuffle
`[...currentPoints].sort(() => 0.5 - Math.random())` always produces some
permutation of its input, so it is modelled by an explicit `shuffle`
function parameter; theorems that need it assume only that the shuffle
preserves length or is a permutation, which any `Array.prototype.sort`
guarantees.
-/

namespace PolicyVisualizer

/-- Integer pixel coordinate, as in `src/types.ts`. -/
structure Point where
  x : Nat
  y : Nat
  deriving DecidableEq, Repr

/-- RGB color with 8-bit channels, as in `src/types.ts`. -/
structure RGBColor where
  r : Nat
  g : Nat
  b : Nat
  deriving DecidableEq, Repr

/-- One RGBA pixel of an `ImageData` buffer. -/
structure Pixel where
  r : Nat
  g : Nat
  b : Nat
  a : Nat
  deriving DecidableEq, Repr

/-- Excluded rectangle, as in `src/types.ts`.  The numeric fields come from
`parseInt`/drawing and may be any integers; the `id` is a JS number
(`Date.now()` or `Date.now() + Math.random()`), modelled as a rational. -/
structure ExcludedArea where
  id : Rat
  x : Int
  y : Int
  width : Int
  height : Int
  deriving DecidableEq, Repr

/-- Rounding used by a `Uint8ClampedArray` store: round to the nearest
integer, ties to even. -/
def roundTiesToEven (q : Rat) : Int :=
  let f := ⌊q⌋
  let r := q - f
  if r < 1 / 2 then f
  else if 1 / 2 < r then f + 1
  else if f % 2 = 0 then f else f + 1

/-- Clamp-and-round of a rational into an 8-bit unsigned value, as a
`Uint8ClampedArray` store does. -/
def clampToByte (q : Rat) : Nat :=
  (max 0 (min 255 (roundTiesToEven q))).toNat

/-- `toGrayscale` from `src/utils/imageProcessing.ts`: luminosity-weighted
conversion `0.299·R + 0.587·G + 0.114·B` of each pixel, stored into a
`Uint8ClampedArray` (hence clamped and rounded). -/
def toGrayscale (imageData : List Pixel) : List Nat :=
  imageData.map fun p =>
    clampToByte ((299 : Rat) / 1000 * p.r + (587 : Rat) / 1000 * p.g +
      (114 : Rat) / 1000 * p.b)

/-- Test `x >= area.x && x < area.x + area.width && y >= area.y && y < area.y + area.height`
used by both `sobel` and `analyzeFrame`. -/
def inExcludedArea (x y : Nat) (area : ExcludedArea) : Bool :=
  decide (area.x ≤ (x : Int)) && decide ((x : Int) < area.x + area.width) &&
  decide (area.y ≤ (y : Int)) && decide ((y : Int) < area.y + area.height)

/-- A coordinate is excluded when it lies in ANY of the areas. -/
def inAnyExcludedArea (x y : Nat) (areas : List ExcludedArea) : Bool :=
  areas.any (inExcludedArea x y)

/-- Read of `grayscaleData[i]` (always in bounds in the source for interior
pixels of a `width×height` buffer). -/
def grayAt (g : List Nat) (i : Nat) : Int :=
  (g.getD i 0 : Int)

/-- Horizontal Sobel gradient at `(x,y)`: convolution with
`[[-1,0,1],[-2,0,2],[-1,0,1]]`.  Since the source only evaluates interior
pixels (`x ≥ 1`, `y ≥ 1`), the truncated `Nat` subtractions never clip. -/
def sobelGx (g : List Nat) (width x y : Nat) : Int :=
  -grayAt g ((y - 1) * width + (x - 1)) + grayAt g ((y - 1) * width + (x + 1))
  - 2 * grayAt g (y * width + (x - 1)) + 2 * grayAt g (y * width + (x + 1))
  - grayAt g ((y + 1) * width + (x - 1)) + grayAt g ((y + 1) * width + (x + 1))

/-- Vertical Sobel gradient at `(x,y)`: convolution with
`[[-1,-2,-1],[0,0,0],[1,2,1]]`. -/
def sobelGy (g : List Nat) (width x y : Nat) : Int :=
  -grayAt g ((y - 1) * width + (x - 1)) - 2 * grayAt g ((y - 1) * width + x)
  - grayAt g ((y - 1) * width + (x + 1))
  + grayAt g ((y + 1) * width + (x - 1)) + 2 * grayAt g ((y + 1) * width + x)
  + grayAt g ((y + 1) * width + (x + 1))

/-- Squared gradient magnitude `gx² + gy²`. -/
def sobelMagSq (g : List Nat) (width x y : Nat) : Int :=
  sobelGx g width x y ^ 2 + sobelGy g width x y ^ 2

/-- `sobel` from `src/utils/imageProcessing.ts`.  The loops run `y` from `1`
to `height - 2` (outer) and `x` from `1` to `width - 2` (inner), skip points
inside any excluded area, and push `(x,y)` when
`Math.sqrt(gx*gx + gy*gy) > threshold`; for the integer slider threshold this
is equivalent to `gx² + gy² > threshold²`. -/
def sobel (grayscaleData : List Nat) (width height threshold : Nat)
    (excludedAreas : List ExcludedArea) : List Point :=
  ((List.range (height - 2)).map (· + 1)).flatMap fun y =>
    ((List.range (width - 2)).map (· + 1)).filterMap fun x =>
      if inAnyExcludedArea x y excludedAreas then none
      else if ((threshold : Int)) ^ 2 < sobelMagSq grayscaleData width x y then
        some ⟨x, y⟩
      else none

/-- Return shape of `comparePoints` in
`src/components/MotionDetectionAnalyzer.tsx`. -/
structure CompareResult where
  stablePoints : List Point
  movedPoints : List Point
  changedPercentage : Rat
  lowConfidence : Bool
  deriving DecidableEq, Repr

/-- `comparePoints` from `src/components/MotionDetectionAnalyzer.tsx`.
The previous-point `Set` keyed by the string `x,y` is exact coordinate
equality, modelled as list membership; the random sort of the spread copy is
the `shuffle` parameter; `forEach` with two pushes is `List.partition`. -/
def comparePoints (shuffle : List Point → List Point)
    (prevPoints currentPoints : List Point) (comparisonPoints : Nat) :
    CompareResult :=
  let lowConfidence := decide (currentPoints.length < comparisonPoints) &&
    decide (0 < currentPoints.length)
  let sampleSize := min currentPoints.length comparisonPoints
  if sampleSize = 0 then ⟨[], [], 0, false⟩
  else
    let currentSample := (shuffle currentPoints).take sampleSize
    let sp := currentSample.partition fun p => decide (p ∈ prevPoints)
    ⟨sp.1, sp.2, (sp.2.length : Rat) / sampleSize * 100, lowConfidence⟩

example :
    comparePoints (fun l => l) [] [⟨1, 1⟩] 1000 =
      ⟨[], [⟨1, 1⟩], 100, true⟩ := by with_unfolding_all rfl

example :
    sobel [0, 0, 0, 0, 0, 0, 255, 255, 255] 3 3 0 [] = [⟨1, 1⟩] := by decide

example :
    toGrayscale [⟨255, 255, 255, 255⟩, ⟨0, 0, 0, 255⟩] = [255, 0] := by
  with_unfolding_all rfl

/-! ## Heap-level model of `comparePoints` (for the frame effect on its
input arrays).  JS arrays are references into a heap; the store holds the
point arrays and references are indices into it. -/

/-- A heap of JS point arrays. -/
abbrev Store := List (List Point)

/-- `comparePoints` at the heap level.  `prevPoints` and `currentPoints` are
read through references; the only allocation is the spread copy
`[...currentPoints]` which `sort` then mutates in place (the random sort is
the `shuffle` argument applied to the copy); nothing writes through the
input references. -/
def comparePointsST (σ : Store) (prevRef curRef : Nat)
    (shuffle : List Point → List Point) (comparisonPoints : Nat) :
    Store × CompareResult :=
  let prevPoints := σ.getD prevRef []
  let currentPoints := σ.getD curRef []
  let lowConfidence := decide (currentPoints.length < comparisonPoints) &&
    decide (0 < currentPoints.length)
  let sampleSize := min currentPoints.length comparisonPoints
  if sampleSize = 0 then (σ, ⟨[], [], 0, false⟩)
  else
    let copy := shuffle currentPoints
    let σ1 := σ ++ [copy]
    let currentSample := copy.take sampleSize
    let sp := currentSample.partition fun p => decide (p ∈ prevPoints)
    (σ1, ⟨sp.1, sp.2, (sp.2.length : Rat) / sampleSize * 100, lowConfidence⟩)

/-! ## Dominant color clustering (`analyzeFrame` in the color analyzer,
`src/unnamed/part_002`). -/

/-- One greedy cluster: founding pixel's color and the number of pixels
assigned so far. -/
structure ColorCluster where
  representative : RGBColor
  count : Nat
  deriving DecidableEq, Repr

/-- Squared Euclidean RGB distance.  The source compares
`Math.sqrt(distSq) < thresholdDist`; for the integer slider threshold this
is equivalent to `distSq < thresholdDist²`. -/
def colorDistSq (c1 c2 : RGBColor) : Int :=
  ((c1.r : Int) - c2.r) ^ 2 + ((c1.g : Int) - c2.g) ^ 2 +
    ((c1.b : Int) - c2.b) ^ 2

/-- Assign one pixel color to the FIRST cluster whose representative is
within the distance threshold (incrementing its count), else append a new
cluster with count 1.  Representatives never change. -/
def assignToClusters (thresholdDist : Nat) (clusters : List ColorCluster)
    (c : RGBColor) : List ColorCluster :=
  match clusters with
  | [] => [⟨c, 1⟩]
  | cl :: rest =>
    if colorDistSq c cl.representative < (thresholdDist : Int) ^ 2 then
      ⟨cl.representative, cl.count + 1⟩ :: rest
    else cl :: assignToClusters thresholdDist rest c

/-- The source's `isPixelInExcludedArea` local helper (same rectangle test
as the Sobel path). -/
def isPixelInExcludedArea (px py : Nat) (areas : List ExcludedArea) : Bool :=
  inAnyExcludedArea px py areas

/-- One iteration of `analyzeFrame`'s clustering loop.  `jp.1` is the pixel
index `i / 4`; the pixel coordinate is `(i/4 % width, ⌊(i/4) / width⌋)`.
Transparent (`alpha < 128`) and excluded pixels are skipped; the rest
increment `analyzablePixelCount` and are clustered. -/
def clusterStep (width thresholdDist : Nat) (areas : List ExcludedArea)
    (st : Nat × List ColorCluster) (jp : Nat × Pixel) :
    Nat × List ColorCluster :=
  if jp.2.a < 128 then st
  else if isPixelInExcludedArea (jp.1 % width) (jp.1 / width) areas then st
  else (st.1 + 1, assignToClusters thresholdDist st.2 ⟨jp.2.r, jp.2.g, jp.2.b⟩)

/-- The clustering pass of `analyzeFrame`: returns
`(analyzablePixelCount, colorClusters)`. -/
def clusterPixels (data : List Pixel) (width thresholdDist : Nat)
    (areas : List ExcludedArea) : Nat × List ColorCluster :=
  data.enum.foldl (clusterStep width thresholdDist areas) (0, [])

/-- Return shape of `analyzeFrame` (non-null case). -/
structure AnalysisOutput where
  newImageData : List Pixel
  dominantColor : RGBColor
  percentage : Rat
  deriving DecidableEq, Repr

/-- `reduce((max, cluster) => cluster.count > max.count ? cluster : max, clusters[0])`
over the whole cluster array. -/
def dominantClusterOf (c0 : ColorCluster) (clusters : List ColorCluster) :
    ColorCluster :=
  clusters.foldl (fun m c => if m.count < c.count then c else m) c0

/-- `analyzeFrame` from the color analyzer (`src/unnamed/part_002`): greedy
clustering of analyzable pixels, `null` when no cluster formed, else the
dominant cluster's color, its coverage percentage
(`count / (analyzablePixelCount || 1) * 100`), and the highlight buffer in
which every analyzable pixel within the threshold of the dominant color is
overwritten with pure red. -/
def analyzeFrame (data : List Pixel) (width height thresholdDist : Nat)
    (areas : List ExcludedArea) : Option AnalysisOutput :=
  let res := clusterPixels data width thresholdDist areas
  match res.2 with
  | [] => none
  | c0 :: rest =>
    let dominant := dominantClusterOf c0 (c0 :: rest)
    let percentage := (dominant.count : Rat) /
      (if res.1 = 0 then 1 else (res.1 : Rat)) * 100
    let newImageData := data.enum.map fun jp =>
      if jp.2.a < 128 then jp.2
      else if isPixelInExcludedArea (jp.1 % width) (jp.1 / width) areas then
        jp.2
      else if colorDistSq ⟨jp.2.r, jp.2.g, jp.2.b⟩ dominant.representative <
          (thresholdDist : Int) ^ 2 then
        ⟨255, 0, 0, jp.2.a⟩
      else jp.2
    some ⟨newImageData, dominant.representative, percentage⟩

/-- Sum of all cluster counts. -/
def sumCounts (clusters : List ColorCluster) : Nat :=
  (clusters.map ColorCluster.count).sum

/-- An indexed pixel is analyzable when it is neither transparent
(`alpha < 128`) nor inside any excluded area. -/
def isAnalyzablePixel (width : Nat) (areas : List ExcludedArea)
    (jp : Nat × Pixel) : Bool :=
  !decide (jp.2.a < 128) &&
    !isPixelInExcludedArea (jp.1 % width) (jp.1 / width) areas

/-- Number of analyzable pixels of a buffer. -/
def countAnalyzable (data : List Pixel) (width : Nat)
    (areas : List ExcludedArea) : Nat :=
  (data.enum.filter (isAnalyzablePixel width areas)).length

example :
    analyzeFrame [⟨255, 0, 0, 255⟩] 1 1 30 [] =
      some ⟨[⟨255, 0, 0, 255⟩], ⟨255, 0, 0⟩, 100⟩ := by
  with_unfolding_all rfl

/-! ## Video frame-sampling orchestrators.  Frame acquisition (seek and
decode) is an external concern: the pixels the processing canvas holds at
timestamp `i / 15` are supplied by a `frameAt` function.  The per-frame
random sort is supplied as a family `shuffle i` of permutations. -/

/-- `Math.floor(duration * ANALYSIS_FPS)` with `ANALYSIS_FPS = 15`. -/
def totalFramesFor (duration : Rat) : Nat :=
  (⌊duration * 15⌋).toNat

/-- Per-frame motion result, as in `src/types.ts`. -/
structure MotionFrameAnalysisResult where
  frame : Nat
  time : Rat
  changedPercentage : Rat
  motionDetected : Bool
  lowConfidence : Bool
  stablePoints : List Point
  movedPoints : List Point
  deriving DecidableEq, Repr

/-- `getEdgePoints` from `src/components/MotionDetectionAnalyzer.tsx`:
grayscale conversion followed by Sobel edge detection. -/
def getEdgePoints (data : List Pixel) (width height edgeThreshold : Nat)
    (areasToExclude : List ExcludedArea) : List Point :=
  sobel (toGrayscale data) width height edgeThreshold areasToExclude

/-- One iteration of the `handleAnalyzeVideoFile` loop: analyze the frame at
index `i`, compare with `previousEdgePoints` (the first component of the
state), push the tagged result, and thread the new edge points. -/
def motionStep (frameAt : Nat → List Pixel)
    (shuffle : Nat → List Point → List Point)
    (width height edgeThreshold comparisonPoints : Nat) (tolerance : Rat)
    (areas : List ExcludedArea)
    (st : List Point × List MotionFrameAnalysisResult) (i : Nat) :
    List Point × List MotionFrameAnalysisResult :=
  let edgePoints := getEdgePoints (frameAt i) width height edgeThreshold areas
  let c := comparePoints (shuffle i) st.1 edgePoints comparisonPoints
  (edgePoints,
    st.2 ++ [{ frame := i, time := (i : Rat) / 15,
               changedPercentage := c.changedPercentage,
               motionDetected := decide (c.changedPercentage / 100 ≥ tolerance),
               lowConfidence := c.lowConfidence,
               stablePoints := c.stablePoints,
               movedPoints := c.movedPoints }])

/-- `handleAnalyzeVideoFile` from `src/components/MotionDetectionAnalyzer.tsx`
(the analysis loop of a run that completes): for `i` in
`0 .. totalFrames - 1` seek to `i / 15`, extract edge points, compare with
the previous frame's edge points (initially empty) and collect the results. -/
def handleAnalyzeVideoFile (frameAt : Nat → List Pixel)
    (shuffle : Nat → List Point → List Point)
    (width height edgeThreshold comparisonPoints : Nat) (tolerance : Rat)
    (areas : List ExcludedArea) (duration : Rat) :
    List MotionFrameAnalysisResult :=
  ((List.range (totalFramesFor duration)).foldl
    (motionStep frameAt shuffle width height edgeThreshold comparisonPoints
      tolerance areas)
    ([], [])).2

/-- Per-frame color result, as in `src/types.ts`. -/
structure FrameAnalysisResult where
  time : Rat
  dominantColor : RGBColor
  percentage : Rat
  newImageData : List Pixel
  deriving DecidableEq, Repr

/-- One iteration of the video loop of `handleAnalyzeClick`
(`src/unnamed/part_002`): `if (result) results.push({time, ...result})` —
a frame whose analysis returns `null` contributes nothing. -/
def colorStep (frameAt : Nat → List Pixel) (width height threshold : Nat)
    (areas : List ExcludedArea)
    (acc : List FrameAnalysisResult) (i : Nat) : List FrameAnalysisResult :=
  match analyzeFrame (frameAt i) width height threshold areas with
  | some r => acc ++ [⟨(i : Rat) / 15, r.dominantColor, r.percentage,
      r.newImageData⟩]
  | none => acc

/-- The video branch of `handleAnalyzeClick` from the color analyzer
(`src/unnamed/part_002`), for a run that completes. -/
def handleAnalyzeClick (frameAt : Nat → List Pixel)
    (width height threshold : Nat) (areas : List ExcludedArea)
    (duration : Rat) : List FrameAnalysisResult :=
  (List.range (totalFramesFor duration)).foldl
    (colorStep frameAt width height threshold areas) []

/-! ## Excluded-area JSON import (`handleImportJSON` in
`src/components/MotionDetectionAnalyzer.tsx`). -/

/-- A parsed JSON value (`JSON.parse` output). -/
inductive Json where
  | null : Json
  | bool (b : Bool) : Json
  | num (q : Rat) : Json
  | str (s : String) : Json
  | arr (elems : List Json) : Json
  | obj (fields : List (String × Json)) : Json
  deriving Repr

/-- JS truthiness of a parsed JSON value. -/
def truthy : Json → Bool
  | Json.null => false
  | Json.bool b => b
  | Json.num q => decide (q ≠ 0)
  | Json.str s => decide (s ≠ "")
  | Json.arr _ => true
  | Json.obj _ => true

/-- Property read `j[key]`: a lookup on an object, `undefined` (`none`) on
arrays, numbers, strings and booleans.  Reading a property of `null` throws
instead; callers model that case separately. -/
def getField : Json → String → Option Json
  | Json.obj fields, key => (fields.find? fun kv => decide (kv.1 = key)).map
      (fun kv => kv.2)
  | _, _ => none

/-- `v || 0`: a missing (`undefined`) or falsy value becomes `0`; any other
value — numeric or not — is kept as-is. -/
def coerceField (v : Option Json) : Json :=
  match v with
  | some j => if truthy j then j else Json.num 0
  | none => Json.num 0

/-- An imported area before ids are attached.  The fields are whatever
values the coercion produced — the source never checks they are numbers. -/
structure ImportedArea where
  x : Json
  y : Json
  width : Json
  height : Json
  deriving Repr

/-- `{x: area.x || 0, y: area.y || 0, width: area.width || 0, height: area.height || 0}`.
Reading a property of a `null` element throws a `TypeError` (`none`). -/
def importArea : Json → Option ImportedArea
  | Json.null => none
  | j => some ⟨coerceField (getField j "x"), coerceField (getField j "y"),
      coerceField (getField j "width"), coerceField (getField j "height")⟩

/-- `jsonData.map(area => ...)`: left-to-right, aborting (throwing) at the
first `null` element. -/
def importAreaList : List Json → Option (List ImportedArea)
  | [] => some []
  | e :: rest =>
    match importArea e, importAreaList rest with
    | some a, some tail => some (a :: tail)
    | _, _ => none

/-- Message set by the `catch` handler of `handleImportJSON`. -/
def parseErrorMsg : String := "Failed to parse JSON file. Please check the format."

/-- Message set when the parsed value has the wrong top-level shape. -/
def invalidFormatMsg : String :=
  "Invalid JSON format. Expected array of areas or object with excludedAreas property."

/-- `handleImportJSON` from `src/components/MotionDetectionAnalyzer.tsx`.
`none` stands for file text that `JSON.parse` rejects (the `catch` branch).
A parsed `null` also ends in the `catch` branch, because
`jsonData.excludedAreas` throws on `null`; likewise a `null` element inside
the imported array.  A top level that is neither an array nor an object
whose `excludedAreas` property is an array sets the invalid-format error.
On success all areas are produced at once (`handleImportExcludedAreas` is
called exactly once, so there is never a partial import). -/
def handleImportJSON : Option Json → Except String (List ImportedArea)
  | none => Except.error parseErrorMsg
  | some Json.null => Except.error parseErrorMsg
  | some (Json.arr elems) =>
    match importAreaList elems with
    | some areas => Except.ok areas
    | none => Except.error parseErrorMsg
  | some j =>
    match getField j "excludedAreas" with
    | some (Json.arr elems) =>
      match importAreaList elems with
      | some areas => Except.ok areas
      | none => Except.error parseErrorMsg
    | _ => Except.error invalidFormatMsg

/-- Whether a parsed import payload is rejected by `handleImportJSON`. -/
def importRejected : Option Json → Bool
  | none => true
  | some Json.null => true
  | some (Json.arr elems) =>
    elems.any fun e => match e with | Json.null => true | _ => false
  | some j =>
    match getField j "excludedAreas" with
    | some (Json.arr elems) =>
      elems.any fun e => match e with | Json.null => true | _ => false
    | _ => true

/-! ## Excluded-area session operations (add / remove / field edit / draw /
import) shared by both analyzers. -/

/-- `handleAddExcludedArea`: append a fresh all-zero area only when fewer
than 5 areas exist; `now` models `Date.now()`. -/
def handleAddExcludedArea (prev : List ExcludedArea) (now : Rat) :
    List ExcludedArea :=
  if prev.length < 5 then prev ++ [⟨now, 0, 0, 0, 0⟩] else prev

/-- `handleRemoveExcludedArea`: drop the area with the given id. -/
def handleRemoveExcludedArea (prev : List ExcludedArea) (i : Rat) :
    List ExcludedArea :=
  prev.filter fun a => decide (a.id ≠ i)

/-- `handleImportExcludedAreas` (both analyzers): append ALL imported areas
to the existing ones — no cap is enforced on this path. -/
def handleImportExcludedAreas (prev newAreas : List ExcludedArea) :
    List ExcludedArea :=
  prev ++ newAreas

/-- A field of an excluded area edited through the numeric inputs. -/
inductive AreaField where
  | x : AreaField
  | y : AreaField
  | width : AreaField
  | height : AreaField
  deriving DecidableEq, Repr

/-- Update of one field, as `handleExcludedAreaChange` does per area. -/
def setAreaField (a : ExcludedArea) : AreaField → Int → ExcludedArea
  | AreaField.x, v => { a with x := v }
  | AreaField.y, v => { a with y := v }
  | AreaField.width, v => { a with width := v }
  | AreaField.height, v => { a with height := v }

/-- The operations a session can perform on the excluded-area list. -/
inductive AreaOp where
  | add (now : Rat) : AreaOp
  | remove (i : Rat) : AreaOp
  | change (i : Rat) (field : AreaField) (value : Int) : AreaOp
  | draw (i : Rat) (rx ry rw rh : Int) : AreaOp
  | importAreas (newAreas : List ExcludedArea) : AreaOp
  deriving Repr

/-- State transition of the excluded-area list: `add` is
`handleAddExcludedArea`, `remove` is `handleRemoveExcludedArea`, `change`
is `handleExcludedAreaChange`, `draw` is the `handleCanvasMouseUp` /
`handleAreaDrawn` rectangle replacement, and `importAreas` is
`handleImportExcludedAreas`. -/
def applyAreaOp (s : List ExcludedArea) : AreaOp → List ExcludedArea
  | AreaOp.add now => handleAddExcludedArea s now
  | AreaOp.remove i => handleRemoveExcludedArea s i
  | AreaOp.change i field v =>
    s.map fun a => if a.id = i then setAreaField a field v else a
  | AreaOp.draw i rx ry rw rh =>
    s.map fun a =>
      if a.id = i then { a with x := rx, y := ry, width := rw, height := rh }
      else a
  | AreaOp.importAreas newAreas => handleImportExcludedAreas s newAreas

/-- Whether an operation is a JSON import. -/
def isImportOp : AreaOp → Bool
  | AreaOp.importAreas _ => true
  | _ => false

/-! ## Helper lemmas -/

theorem length_filter_add_length_filter_not {α : Type} (p : α → Bool)
    (l : List α) :
    (l.filter p).length + (l.filter fun a => !p a).length = l.length := by
  induction l with
  | nil => rfl
  | cons a l ih =>
    by_cases h : p a <;> simp [List.filter_cons, h] <;> omega

/-! ## C8: lowConfidence characterization -/

/-- C8 (confirmed): for every pair of previous and current edge-point sets
(and every sample cap), the motion comparator returns `lowConfidence = true`
if and only if `0 < currentPoints.length < comparisonPoints`. -/
theorem comparePoints_lowConfidence_iff (shuffle : List Point → List Point)
    (prevPoints currentPoints : List Point) (comparisonPoints : Nat) :
    (comparePoints shuffle prevPoints currentPoints
        comparisonPoints).lowConfidence = true ↔
      0 < currentPoints.length ∧ currentPoints.length < comparisonPoints := by
  unfold comparePoints
  by_cases h : min currentPoints.length comparisonPoints = 0 <;>
    simp [h] <;> omega

/-! ## C7: sample partition and percentage bounds -/

/-- C7 (confirmed): the comparator's stable and moved point lists partition
the drawn sample, so their lengths add up to
`sampleSize = min (length current) comparisonPoints`, and the changed
percentage lies in `[0, 100]`.  The only assumption is that the random sort
of the copied array returns a list of the same length, which holds for any
`Array.prototype.sort`. -/
theorem comparePoints_sample_partition (shuffle : List Point → List Point)
    (prevPoints currentPoints : List Point) (comparisonPoints : Nat)
    (hlen : (shuffle currentPoints).length = currentPoints.length) :
    (comparePoints shuffle prevPoints currentPoints
        comparisonPoints).stablePoints.length +
      (comparePoints shuffle prevPoints currentPoints
        comparisonPoints).movedPoints.length =
      min currentPoints.length comparisonPoints ∧
    0 ≤ (comparePoints shuffle prevPoints currentPoints
        comparisonPoints).changedPercentage ∧
    (comparePoints shuffle prevPoints currentPoints
        comparisonPoints).changedPercentage ≤ 100 := by
  unfold comparePoints
  by_cases h : min currentPoints.length comparisonPoints = 0
  · simp [h]
  · simp only [h, if_false, List.partition_eq_filter_filter]
    set s := min currentPoints.length comparisonPoints with hs
    have hsample :
        ((shuffle currentPoints).take s).length = s := by
      simp [List.length_take, hlen]
      omega
    have hpart :
        ((((shuffle currentPoints).take s).filter fun p =>
            decide (p ∈ prevPoints)).length) +
          ((((shuffle currentPoints).take s).filter fun p =>
            !decide (p ∈ prevPoints)).length) = s := by
      rw [length_filter_add_length_filter_not]
      exact hsample
    have hmle :
        ((((shuffle currentPoints).take s).filter fun p =>
            !decide (p ∈ prevPoints)).length) ≤ s := by omega
    have hspos : 0 < s := Nat.pos_of_ne_zero h
    have hsq : (0 : Rat) < (s : Rat) := by exact_mod_cast hspos
    refine ⟨?_, ?_, ?_⟩
    · simpa [Function.comp] using hpart
    · positivity
    · have hdiv :
          ((((shuffle currentPoints).take s).filter fun p =>
              !decide (p ∈ prevPoints)).length : Rat) / (s : Rat) ≤ 1 := by
        rw [div_le_one hsq]
        exact_mod_cast hmle
      calc ((((shuffle currentPoints).take s).filter fun p =>
              !decide (p ∈ prevPoints)).length : Rat) / (s : Rat) * 100
          ≤ 1 * 100 := by
            apply mul_le_mul_of_nonneg_right hdiv
            norm_num
        _ = 100 := by norm_num

/-- C7 witness: the partition identity and percentage bounds at a concrete
call. -/
theorem comparePoints_sample_partition_witness :
    (((fun l => l) [(⟨1, 1⟩ : Point), ⟨2, 2⟩]).length =
        [(⟨1, 1⟩ : Point), ⟨2, 2⟩].length) ∧
      ((comparePoints (fun l => l) [⟨1, 1⟩] [⟨1, 1⟩, ⟨2, 2⟩]
          5).stablePoints.length +
        (comparePoints (fun l => l) [⟨1, 1⟩] [⟨1, 1⟩, ⟨2, 2⟩]
          5).movedPoints.length =
        min [(⟨1, 1⟩ : Point), ⟨2, 2⟩].length 5 ∧
      0 ≤ (comparePoints (fun l => l) [⟨1, 1⟩] [⟨1, 1⟩, ⟨2, 2⟩]
          5).changedPercentage ∧
      (comparePoints (fun l => l) [⟨1, 1⟩] [⟨1, 1⟩, ⟨2, 2⟩]
          5).changedPercentage ≤ 100) :=
  ⟨rfl, comparePoints_sample_partition (fun l => l) [⟨1, 1⟩] [⟨1, 1⟩, ⟨2, 2⟩]
    5 rfl⟩

/-! ## C9: Sobel returns only interior coordinates -/

/-- C9 (confirmed): every point the Sobel detector returns is interior —
its `x` is neither `0` nor `width - 1` and its `y` is neither `0` nor
`height - 1`, for every buffer, size, threshold and excluded-area list. -/
theorem sobel_interior_only (g : List Nat) (width height threshold : Nat)
    (areas : List ExcludedArea) (p : Point)
    (hp : p ∈ sobel g width height threshold areas) :
    p.x ≠ 0 ∧ p.x ≠ width - 1 ∧ p.y ≠ 0 ∧ p.y ≠ height - 1 := by
  unfold sobel at hp
  simp only [List.mem_flatMap, List.mem_filterMap, List.mem_map,
    List.mem_range] at hp
  obtain ⟨y, ⟨my, hmy, rfl⟩, x, ⟨mx, hmx, rfl⟩, hfx⟩ := hp
  split at hfx
  · exact absurd hfx (by simp)
  · split at hfx
    · cases hfx
      refine ⟨?_, ?_, ?_, ?_⟩
      · show mx + 1 ≠ 0
        omega
      · show mx + 1 ≠ width - 1
        omega
      · show my + 1 ≠ 0
        omega
      · show my + 1 ≠ height - 1
        omega
    · exact absurd hfx (by simp)

/-- C9 witness: a concrete 3×3 buffer with a bright bottom row produces the
edge point `(1,1)`, which is interior. -/
theorem sobel_interior_only_witness :
    (⟨1, 1⟩ : Point) ∈ sobel [0, 0, 0, 0, 0, 0, 255, 255, 255] 3 3 0 [] ∧
      ((1 : Nat) ≠ 0 ∧ (1 : Nat) ≠ 3 - 1 ∧ (1 : Nat) ≠ 0 ∧
        (1 : Nat) ≠ 3 - 1) :=
  ⟨by decide,
    sobel_interior_only [0, 0, 0, 0, 0, 0, 255, 255, 255] 3 3 0 [] ⟨1, 1⟩
      (by decide)⟩

/-! ## C5: Sobel threshold monotonicity -/

/-- C5 (confirmed): raising the threshold can only remove edge points — for
`threshold1 < threshold2` the point set at `threshold2` is a subset of the
point set at `threshold1`, for every buffer, size and excluded-area list. -/
theorem sobel_threshold_monotone (g : List Nat) (width height : Nat)
    (threshold1 threshold2 : Nat) (areas : List ExcludedArea)
    (h12 : threshold1 < threshold2) :
    sobel g width height threshold2 areas ⊆
      sobel g width height threshold1 areas := by
  intro p hp
  unfold sobel at hp ⊢
  simp only [List.mem_flatMap, List.mem_filterMap, List.mem_map,
    List.mem_range] at hp ⊢
  obtain ⟨y, hy, x, hx, hfx⟩ := hp
  refine ⟨y, hy, x, hx, ?_⟩
  by_cases hexc : inAnyExcludedArea x y areas
  · rw [if_pos hexc] at hfx
    cases hfx
  · rw [if_neg hexc] at hfx ⊢
    by_cases hmag : ((threshold2 : Int)) ^ 2 < sobelMagSq g width x y
    · have hmag1 : ((threshold1 : Int)) ^ 2 < sobelMagSq g width x y := by
        have hle : ((threshold1 : Int)) ^ 2 ≤ ((threshold2 : Int)) ^ 2 := by
          have h1 : (threshold1 : Int) ≤ (threshold2 : Int) := by
            exact_mod_cast h12.le
          have h0 : (0 : Int) ≤ (threshold1 : Int) := Int.natCast_nonneg _
          nlinarith
        omega
      rw [if_pos hmag] at hfx
      rw [if_pos hmag1]
      exact hfx
    · rw [if_neg hmag] at hfx
      cases hfx

/-- C5 witness: with the concrete 3×3 buffer, the point `(1,1)` found at
threshold 100 is also found at threshold 0. -/
theorem sobel_threshold_monotone_witness :
    (0 : Nat) < 100 ∧
      (⟨1, 1⟩ : Point) ∈ sobel [0, 0, 0, 0, 0, 0, 255, 255, 255] 3 3 100 [] ∧
      (⟨1, 1⟩ : Point) ∈ sobel [0, 0, 0, 0, 0, 0, 255, 255, 255] 3 3 0 [] :=
  ⟨by decide, by decide,
    sobel_threshold_monotone [0, 0, 0, 0, 0, 0, 255, 255, 255] 3 3 0 100 []
      (by decide) (by decide)⟩

/-! ## C10: the comparator does not mutate its input arrays -/

/-- C10 (confirmed): at the heap level, `comparePoints` never writes through
its input references — the shuffle sorts a fresh spread copy — so after a
call both the previous and the current edge-point arrays are unchanged,
element for element and in order.  In particular the threaded
`previousEdgePoints` state is never corrupted by a comparison. -/
theorem comparePointsST_preserves_inputs (σ : Store) (prevRef curRef : Nat)
    (shuffle : List Point → List Point) (comparisonPoints : Nat)
    (hp : prevRef < σ.length) (hc : curRef < σ.length) :
    ((comparePointsST σ prevRef curRef shuffle
        comparisonPoints).1)[prevRef]? = σ[prevRef]? ∧
      ((comparePointsST σ prevRef curRef shuffle
        comparisonPoints).1)[curRef]? = σ[curRef]? := by
  unfold comparePointsST
  dsimp only
  split
  · exact ⟨rfl, rfl⟩
  · exact ⟨List.getElem?_append_left hp, List.getElem?_append_left hc⟩

/-- C10 witness: a concrete two-array store is untouched by the call. -/
theorem comparePointsST_preserves_inputs_witness :
    (0 : Nat) < [[(⟨0, 0⟩ : Point)], [⟨1, 1⟩]].length ∧
      (1 : Nat) < [[(⟨0, 0⟩ : Point)], [⟨1, 1⟩]].length ∧
      ((comparePointsST [[(⟨0, 0⟩ : Point)], [⟨1, 1⟩]] 0 1 (fun l => l)
          5).1)[0]? = [[(⟨0, 0⟩ : Point)], [⟨1, 1⟩]][0]? ∧
      ((comparePointsST [[(⟨0, 0⟩ : Point)], [⟨1, 1⟩]] 0 1 (fun l => l)
          5).1)[1]? = [[(⟨0, 0⟩ : Point)], [⟨1, 1⟩]][1]? :=
  ⟨by decide, by decide,
    comparePointsST_preserves_inputs [[⟨0, 0⟩], [⟨1, 1⟩]] 0 1 (fun l => l) 5
      (by decide) (by decide)⟩

/-! ## C6: cluster counts sum to the analyzable pixel count;
percentage bounds -/

theorem sumCounts_assignToClusters (thresholdDist : Nat)
    (clusters : List ColorCluster) (c : RGBColor) :
    sumCounts (assignToClusters thresholdDist clusters c) =
      sumCounts clusters + 1 := by
  induction clusters with
  | nil => simp [assignToClusters, sumCounts]
  | cons cl rest ih =>
    unfold assignToClusters
    split
    · simp [sumCounts]
      omega
    · simp only [sumCounts, List.map_cons, List.sum_cons] at ih ⊢
      omega

theorem counts_pos_assignToClusters (thresholdDist : Nat)
    (clusters : List ColorCluster) (c : RGBColor)
    (h : ∀ x ∈ clusters, 0 < x.count) :
    ∀ x ∈ assignToClusters thresholdDist clusters c, 0 < x.count := by
  induction clusters with
  | nil =>
    intro x hx
    simp [assignToClusters] at hx
    simp [hx]
  | cons cl rest ih =>
    intro x hx
    unfold assignToClusters at hx
    split at hx
    · rcases List.mem_cons.mp hx with hx | hx
      · subst hx
        exact Nat.succ_pos _
      · exact h x (List.mem_cons_of_mem _ hx)
    · rcases List.mem_cons.mp hx with hx | hx
      · rw [hx]
        exact h cl (List.mem_cons_self _ _)
      · exact ih (fun y hy => h y (List.mem_cons_of_mem _ hy)) x hx

theorem clusterFold_invariant (width thresholdDist : Nat)
    (areas : List ExcludedArea) (l : List (Nat × Pixel))
    (st : Nat × List ColorCluster)
    (hsum : sumCounts st.2 = st.1) (hpos : ∀ x ∈ st.2, 0 < x.count) :
    sumCounts ((l.foldl (clusterStep width thresholdDist areas) st)).2 =
        ((l.foldl (clusterStep width thresholdDist areas) st)).1 ∧
      ∀ x ∈ ((l.foldl (clusterStep width thresholdDist areas) st)).2,
        0 < x.count := by
  induction l generalizing st with
  | nil => exact ⟨hsum, hpos⟩
  | cons jp l ih =>
    rw [List.foldl_cons]
    apply ih
    · unfold clusterStep
      split
      · exact hsum
      · split
        · exact hsum
        · show sumCounts (assignToClusters thresholdDist st.2
              ⟨jp.2.r, jp.2.g, jp.2.b⟩) = st.1 + 1
          rw [sumCounts_assignToClusters, hsum]
    · unfold clusterStep
      split
      · exact hpos
      · split
        · exact hpos
        · exact counts_pos_assignToClusters _ _ _ hpos

theorem clusterFold_count (width thresholdDist : Nat)
    (areas : List ExcludedArea) (l : List (Nat × Pixel))
    (st : Nat × List ColorCluster) :
    ((l.foldl (clusterStep width thresholdDist areas) st)).1 =
      st.1 + (l.filter (isAnalyzablePixel width areas)).length := by
  induction l generalizing st with
  | nil => simp
  | cons jp l ih =>
    rw [List.foldl_cons, ih, List.filter_cons]
    unfold clusterStep isAnalyzablePixel
    by_cases h1 : jp.2.a < 128
    · simp [h1]
    · by_cases h2 :
        isPixelInExcludedArea (jp.1 % width) (jp.1 / width) areas
      · simp [h1, h2]
      · simp [h1, h2]
        omega

theorem dominantClusterOf_mem (c0 : ColorCluster)
    (clusters : List ColorCluster) :
    dominantClusterOf c0 clusters = c0 ∨
      dominantClusterOf c0 clusters ∈ clusters := by
  induction clusters generalizing c0 with
  | nil => exact Or.inl rfl
  | cons c rest ih =>
    unfold dominantClusterOf at ih ⊢
    rw [List.foldl_cons]
    rcases ih (if c0.count < c.count then c else c0) with h | h
    · rw [h]
      split
      · exact Or.inr (List.mem_cons_self _ _)
      · exact Or.inl rfl
    · exact Or.inr (List.mem_cons_of_mem _ h)

theorem count_le_sumCounts (clusters : List ColorCluster) (x : ColorCluster)
    (hx : x ∈ clusters) : x.count ≤ sumCounts clusters := by
  induction clusters with
  | nil => cases hx
  | cons c rest ih =>
    rcases List.mem_cons.mp hx with hx | hx
    · rw [hx]
      simp only [sumCounts, List.map_cons, List.sum_cons]
      omega
    · simp only [sumCounts, List.map_cons, List.sum_cons]
      have := ih hx
      unfold sumCounts at this
      omega

/-- C6 (confirmed): whenever the dominant-color clusterer produces a result,
the cluster counts sum to exactly the number of analyzable pixels — those
neither transparent (`alpha < 128`) nor inside any excluded area — and the
reported percentage lies in `[0, 100]`. -/
theorem analyzeFrame_counts_and_percentage (data : List Pixel)
    (width height thresholdDist : Nat) (areas : List ExcludedArea)
    (r : AnalysisOutput)
    (h : analyzeFrame data width height thresholdDist areas = some r) :
    sumCounts (clusterPixels data width thresholdDist areas).2 =
        countAnalyzable data width areas ∧
      0 ≤ r.percentage ∧ r.percentage ≤ 100 := by
  have hinv :=
    clusterFold_invariant width thresholdDist areas data.enum (0, []) rfl
      (by intro x hx; cases hx)
  have hcnt := clusterFold_count width thresholdDist areas data.enum (0, [])
  have hsum : sumCounts (clusterPixels data width thresholdDist areas).2 =
      countAnalyzable data width areas := by
    unfold clusterPixels countAnalyzable
    rw [hinv.1, hcnt]
    simp
  refine ⟨hsum, ?_⟩
  unfold analyzeFrame at h
  dsimp only at h
  rcases hcl : (clusterPixels data width thresholdDist areas).2
    with _ | ⟨c0, rest⟩
  · rw [hcl] at h
    cases h
  · rw [hcl] at h
    simp only [Option.some.injEq] at h
    have hinv1 : sumCounts (clusterPixels data width thresholdDist areas).2 =
        (clusterPixels data width thresholdDist areas).1 := hinv.1
    have hinv2 : ∀ x ∈ (clusterPixels data width thresholdDist areas).2,
        0 < x.count := hinv.2
    have hperc : r.percentage =
        ((dominantClusterOf c0 (c0 :: rest)).count : Rat) /
          (if (clusterPixels data width thresholdDist areas).1 = 0 then 1
            else ((clusterPixels data width thresholdDist areas).1 : Rat)) *
          100 := by
      rw [← h]
    have hdom : dominantClusterOf c0 (c0 :: rest) ∈ c0 :: rest := by
      rcases dominantClusterOf_mem c0 (c0 :: rest) with hd | hd
      · rw [hd]
        exact List.mem_cons_self _ _
      · exact hd
    have hdle : (dominantClusterOf c0 (c0 :: rest)).count ≤
        (clusterPixels data width thresholdDist areas).1 := by
      have h1 := count_le_sumCounts (c0 :: rest) _ hdom
      have h2 := hinv1
      rw [hcl] at h2
      omega
    have hcp1 : 0 < (clusterPixels data width thresholdDist areas).1 := by
      have h3 : c0.count ≤
          sumCounts (clusterPixels data width thresholdDist areas).2 := by
        rw [hcl]
        exact count_le_sumCounts _ _ (List.mem_cons_self _ _)
      have h4 : 0 < c0.count := by
        apply hinv2
        rw [hcl]
        exact List.mem_cons_self _ _
      omega
    have hif : (if (clusterPixels data width thresholdDist areas).1 = 0
        then 1
        else ((clusterPixels data width thresholdDist areas).1 : Rat)) =
        ((clusterPixels data width thresholdDist areas).1 : Rat) := by
      rw [if_neg (Nat.pos_iff_ne_zero.mp hcp1)]
    rw [hperc, hif]
    have hq : (0 : Rat) <
        ((clusterPixels data width thresholdDist areas).1 : Rat) := by
      exact_mod_cast hcp1
    constructor
    · positivity
    · have hdiv : ((dominantClusterOf c0 (c0 :: rest)).count : Rat) /
          ((clusterPixels data width thresholdDist areas).1 : Rat) ≤ 1 := by
        rw [div_le_one hq]
        exact_mod_cast hdle
      calc ((dominantClusterOf c0 (c0 :: rest)).count : Rat) /
            ((clusterPixels data width thresholdDist areas).1 : Rat) * 100
          ≤ 1 * 100 := by
            apply mul_le_mul_of_nonneg_right hdiv
            norm_num
        _ = 100 := by norm_num

/-- C6 witness: the invariants at a concrete single-pixel red image. -/
theorem analyzeFrame_counts_and_percentage_witness :
    analyzeFrame [⟨255, 0, 0, 255⟩] 1 1 30 [] =
        some ⟨[⟨255, 0, 0, 255⟩], ⟨255, 0, 0⟩, 100⟩ ∧
      (sumCounts (clusterPixels [⟨255, 0, 0, 255⟩] 1 30 []).2 =
          countAnalyzable [⟨255, 0, 0, 255⟩] 1 [] ∧
        0 ≤ (AnalysisOutput.mk [⟨255, 0, 0, 255⟩] ⟨255, 0, 0⟩
            100).percentage ∧
        (AnalysisOutput.mk [⟨255, 0, 0, 255⟩] ⟨255, 0, 0⟩
            100).percentage ≤ 100) :=
  ⟨by with_unfolding_all rfl,
    analyzeFrame_counts_and_percentage [⟨255, 0, 0, 255⟩] 1 1 30 []
      ⟨[⟨255, 0, 0, 255⟩], ⟨255, 0, 0⟩, 100⟩ (by with_unfolding_all rfl)⟩

/-! ## C4: frame tagging and ordering of the two orchestrators -/

theorem motionFold_frames (frameAt : Nat → List Pixel)
    (shuffle : Nat → List Point → List Point)
    (width height edgeThreshold comparisonPoints : Nat) (tolerance : Rat)
    (areas : List ExcludedArea) (l : List Nat)
    (st : List Point × List MotionFrameAnalysisResult) :
    ((l.foldl (motionStep frameAt shuffle width height edgeThreshold
        comparisonPoints tolerance areas) st).2).map
        (fun r => r.frame) =
      (st.2.map fun r => r.frame) ++ l := by
  induction l generalizing st with
  | nil => simp
  | cons i l ih =>
    rw [List.foldl_cons, ih]
    unfold motionStep
    simp

theorem motionFold_times (frameAt : Nat → List Pixel)
    (shuffle : Nat → List Point → List Point)
    (width height edgeThreshold comparisonPoints : Nat) (tolerance : Rat)
    (areas : List ExcludedArea) (l : List Nat)
    (st : List Point × List MotionFrameAnalysisResult) :
    ((l.foldl (motionStep frameAt shuffle width height edgeThreshold
        comparisonPoints tolerance areas) st).2).map
        (fun r => r.time) =
      (st.2.map fun r => r.time) ++ l.map (fun i => (i : Rat) / 15) := by
  induction l generalizing st with
  | nil => simp
  | cons i l ih =>
    rw [List.foldl_cons, ih]
    unfold motionStep
    simp

theorem colorFold_eq (frameAt : Nat → List Pixel)
    (width height threshold : Nat) (areas : List ExcludedArea)
    (l : List Nat) (acc : List FrameAnalysisResult) :
    l.foldl (colorStep frameAt width height threshold areas) acc =
      acc ++ l.filterMap fun i =>
        (analyzeFrame (frameAt i) width height threshold areas).map
          fun r0 => ⟨(i : Rat) / 15, r0.dominantColor, r0.percentage,
            r0.newImageData⟩ := by
  induction l generalizing acc with
  | nil => simp
  | cons i l ih =>
    rw [List.foldl_cons, ih, List.filterMap_cons]
    rcases hr : analyzeFrame (frameAt i) width height threshold areas
      with _ | r0
    · simp [colorStep, hr]
    · simp [colorStep, hr]

/-- C4 counterexample concrete frames: frame 0 is one opaque red pixel,
every later frame is one fully transparent pixel (no analyzable content). -/
def cxColorFrameAt : Nat → List Pixel :=
  fun i => if i = 0 then [⟨255, 0, 0, 255⟩] else [⟨0, 0, 0, 0⟩]

/-- C4 counterexample: a 1×1 video of duration `2/15` s has
`totalFrames = 2`, but the color pipeline emits only one result because the
analysis of frame 1 returns `null` (all pixels transparent) and
`if (result)` silently drops that frame, so there is NOT exactly one result
per frame index. -/
theorem color_pipeline_gap_counterexample :
    totalFramesFor (2 / 15) = 2 ∧
      (handleAnalyzeClick cxColorFrameAt 1 1 30 [] (2 / 15)).length = 1 := by
  constructor
  · with_unfolding_all rfl
  · with_unfolding_all rfl

/-- C4 (corrected): for every video input that completes analysis, with
`totalFrames = ⌊duration·15⌋`: the MOTION pipeline yields exactly one result
per frame index `i ∈ 0..totalFrames-1`, in ascending order with no gaps,
tagged `frame = i` and `time = i/15`; the COLOR pipeline yields the results
in the same ascending frame order and tagged `time = i/15`, but only for
those `i` whose frame analysis is non-null — frames with no analyzable
pixels are skipped, so its sequence can have gaps. -/
theorem orchestrators_order_amended :
    (∀ (frameAt : Nat → List Pixel)
      (shuffle : Nat → List Point → List Point)
      (width height edgeThreshold comparisonPoints : Nat) (tolerance : Rat)
      (areas : List ExcludedArea) (duration : Rat),
      (handleAnalyzeVideoFile frameAt shuffle width height edgeThreshold
          comparisonPoints tolerance areas duration).map
          (fun r => r.frame) =
        List.range (totalFramesFor duration) ∧
      (handleAnalyzeVideoFile frameAt shuffle width height edgeThreshold
          comparisonPoints tolerance areas duration).map
          (fun r => r.time) =
        (List.range (totalFramesFor duration)).map
          (fun i => (i : Rat) / 15)) ∧
    (∀ (frameAt : Nat → List Pixel) (width height threshold : Nat)
      (areas : List ExcludedArea) (duration : Rat),
      handleAnalyzeClick frameAt width height threshold areas duration =
        (List.range (totalFramesFor duration)).filterMap fun i =>
          (analyzeFrame (frameAt i) width height threshold areas).map
            fun r0 => ⟨(i : Rat) / 15, r0.dominantColor, r0.percentage,
              r0.newImageData⟩) := by
  constructor
  · intro frameAt shuffle width height edgeThreshold comparisonPoints
      tolerance areas duration
    constructor
    · unfold handleAnalyzeVideoFile
      rw [motionFold_frames]
      simp
    · unfold handleAnalyzeVideoFile
      rw [motionFold_times]
      simp
  · intro frameAt width height threshold areas duration
    unfold handleAnalyzeClick
    rw [colorFold_eq]
    simp

/-! ## C1: the first frame against an empty previous edge-point set -/

theorem comparePoints_empty_prev (shuffle : List Point → List Point)
    (currentPoints : List Point) (comparisonPoints : Nat)
    (hlen : (shuffle currentPoints).length = currentPoints.length)
    (hne : currentPoints ≠ []) (hcp : 0 < comparisonPoints) :
    comparePoints shuffle [] currentPoints comparisonPoints =
      ⟨[], (shuffle currentPoints).take
          (min currentPoints.length comparisonPoints), 100,
        decide (currentPoints.length < comparisonPoints) &&
          decide (0 < currentPoints.length)⟩ := by
  unfold comparePoints
  dsimp only
  have hpos : 0 < currentPoints.length := List.length_pos.mpr hne
  have hs : ¬(min currentPoints.length comparisonPoints = 0) := by omega
  rw [if_neg hs]
  have hfilter1 : ∀ l : List Point,
      (l.filter fun p => decide (p ∈ ([] : List Point))) = [] := by
    intro l
    simp
  have hfilter2 : ∀ l : List Point,
      (l.filter (not ∘ fun p => decide (p ∈ ([] : List Point)))) = l := by
    intro l
    apply List.filter_eq_self.mpr
    intro a _
    simp
  rw [List.partition_eq_filter_filter]
  dsimp only
  rw [hfilter1, hfilter2]
  have hsample : ((shuffle currentPoints).take
      (min currentPoints.length comparisonPoints)).length =
      min currentPoints.length comparisonPoints := by
    simp [List.length_take, hlen]
  rw [CompareResult.mk.injEq]
  refine ⟨rfl, rfl, ?_, rfl⟩
  rw [hsample]
  have hq : ((min currentPoints.length comparisonPoints : Nat) : Rat) ≠ 0 := by
    have h0 : 0 < min currentPoints.length comparisonPoints := by omega
    exact_mod_cast Nat.pos_iff_ne_zero.mp h0
  rw [div_self hq, one_mul]

theorem motionFold_head (frameAt : Nat → List Pixel)
    (shuffle : Nat → List Point → List Point)
    (width height edgeThreshold comparisonPoints : Nat) (tolerance : Rat)
    (areas : List ExcludedArea) (l : List Nat)
    (st : List Point × List MotionFrameAnalysisResult) (hne : st.2 ≠ []) :
    ((l.foldl (motionStep frameAt shuffle width height edgeThreshold
        comparisonPoints tolerance areas) st).2).head? = st.2.head? := by
  induction l generalizing st with
  | nil => rfl
  | cons i l ih =>
    rw [List.foldl_cons]
    rw [ih _ (by unfold motionStep; simp)]
    unfold motionStep
    rcases st with ⟨p, acc⟩
    rcases acc with _ | ⟨a, acc⟩
    · exact absurd rfl hne
    · rfl

/-- C1 (corrected): when frame 0 yields ANY edge points, comparing them
against the empty previous set marks every sampled point as moved: the first
result has `changedPercentage = 100` (not 0) and
`motionDetected = (100/100 ≥ tolerance)`, i.e. true for any
`tolerance ≤ 1`.  Hypotheses: the run has at least one frame, the sample cap
is positive (the UI slider range is 50–1000), the random sort preserves
length (true of any `Array.prototype.sort`), and frame 0 yields at least one
edge point. -/
theorem motion_first_frame_full_change (frameAt : Nat → List Pixel)
    (shuffle : Nat → List Point → List Point)
    (width height edgeThreshold comparisonPoints : Nat) (tolerance : Rat)
    (areas : List ExcludedArea) (duration : Rat)
    (hframes : 0 < totalFramesFor duration) (hcp : 0 < comparisonPoints)
    (hlen : (shuffle 0 (getEdgePoints (frameAt 0) width height edgeThreshold
        areas)).length =
      (getEdgePoints (frameAt 0) width height edgeThreshold areas).length)
    (hne : getEdgePoints (frameAt 0) width height edgeThreshold areas ≠ []) :
    ∃ r : MotionFrameAnalysisResult,
      (handleAnalyzeVideoFile frameAt shuffle width height edgeThreshold
          comparisonPoints tolerance areas duration).head? = some r ∧
        r.frame = 0 ∧ r.changedPercentage = 100 ∧
        r.motionDetected = decide ((1 : Rat) ≥ tolerance) ∧
        r.stablePoints = [] := by
  obtain ⟨m, hm⟩ : ∃ m, totalFramesFor duration = m + 1 :=
    ⟨totalFramesFor duration - 1, by omega⟩
  unfold handleAnalyzeVideoFile
  rw [hm, List.range_succ_eq_map, List.foldl_cons]
  rw [motionFold_head _ _ _ _ _ _ _ _ _ _ (by unfold motionStep; simp)]
  unfold motionStep
  simp only [List.nil_append]
  rw [comparePoints_empty_prev (shuffle 0) _ comparisonPoints hlen hne hcp]
  refine ⟨_, rfl, rfl, rfl, ?_, rfl⟩
  show decide ((100 : Rat) / 100 ≥ tolerance) = decide ((1 : Rat) ≥ tolerance)
  rw [decide_eq_decide]
  constructor
  · intro h
    calc tolerance ≤ (100 : Rat) / 100 := h
      _ = 1 := by norm_num
  · intro h
    calc tolerance ≤ (1 : Rat) := h
      _ = (100 : Rat) / 100 := by norm_num

/-- C1 witness data: a 3×3 frame, black except for a bright bottom row, so
Sobel at threshold 0 finds the single interior point `(1,1)`. -/
def cxFramePixels : List Pixel :=
  [⟨0, 0, 0, 255⟩, ⟨0, 0, 0, 255⟩, ⟨0, 0, 0, 255⟩,
   ⟨0, 0, 0, 255⟩, ⟨0, 0, 0, 255⟩, ⟨0, 0, 0, 255⟩,
   ⟨255, 255, 255, 255⟩, ⟨255, 255, 255, 255⟩, ⟨255, 255, 255, 255⟩]

/-- C1 witness: the amended statement at a concrete one-frame video. -/
theorem motion_first_frame_full_change_witness :
    0 < totalFramesFor (1 / 15) ∧ (0 : Nat) < 1000 ∧
      getEdgePoints cxFramePixels 3 3 0 [] ≠ [] ∧
      (∃ r : MotionFrameAnalysisResult,
        (handleAnalyzeVideoFile (fun _ => cxFramePixels) (fun _ l => l) 3 3 0
            1000 (1 / 10) [] (1 / 15)).head? = some r ∧
          r.frame = 0 ∧ r.changedPercentage = 100 ∧
          r.motionDetected = decide ((1 : Rat) ≥ (1 / 10 : Rat)) ∧
          r.stablePoints = []) :=
  ⟨by with_unfolding_all decide, by decide, by with_unfolding_all decide,
    motion_first_frame_full_change (fun _ => cxFramePixels) (fun _ l => l)
      3 3 0 1000 (1 / 10) [] (1 / 15) (by with_unfolding_all decide)
      (by decide) rfl (by with_unfolding_all decide)⟩

/-- C1 counterexample: the same concrete one-frame video.  The claim says
the first result must have `changedPercentage = 0` and
`motionDetected = false` whenever frame 0 yields edge points; the code
instead produces `changedPercentage = 100` and `motionDetected = true`
(every sampled point is moved relative to the empty previous set). -/
theorem motion_first_frame_counterexample :
    getEdgePoints cxFramePixels 3 3 0 [] = [⟨1, 1⟩] ∧
      handleAnalyzeVideoFile (fun _ => cxFramePixels) (fun _ l => l) 3 3 0
          1000 (1 / 10) [] (1 / 15) =
        [{ frame := 0, time := 0, changedPercentage := 100,
           motionDetected := true, lowConfidence := true,
           stablePoints := [], movedPoints := [⟨1, 1⟩] }] := by
  constructor
  · with_unfolding_all rfl
  · with_unfolding_all rfl

/-! ## C2: JSON import validation -/

theorem importArea_eq_none_iff (j : Json) :
    importArea j = none ↔ j = Json.null := by
  cases j <;> simp [importArea]

theorem importAreaList_eq_none_iff (l : List Json) :
    importAreaList l = none ↔
      (l.any fun e => match e with | Json.null => true | _ => false) =
        true := by
  induction l with
  | nil => simp [importAreaList]
  | cons e rest ih =>
    rcases he : importArea e with _ | a
    · simp only [importAreaList, he, List.any_cons, Bool.or_eq_true]
      have : e = Json.null := (importArea_eq_none_iff e).mp he
      subst this
      simp
    · rcases hr : importAreaList rest with _ | tail
      · simp only [importAreaList, he, hr, List.any_cons, Bool.or_eq_true]
        rw [hr] at ih
        simp only [true_iff] at ih ⊢
        · exact Or.inr (by simpa using ih)
      · simp only [importAreaList, he, hr, List.any_cons, Bool.or_eq_true]
        rw [hr] at ih
        constructor
        · intro hcontra
          cases hcontra
        · intro hor
          rcases hor with h1 | h1
          · have : e = Json.null := by
              cases e <;> simp_all
            subst this
            simp [importArea] at he
          · have hnone : (some tail : Option (List ImportedArea)) = none :=
              ih.mpr h1
            cases hnone

/-- C2 counterexample: an imported array whose single object is missing ALL
of `x`, `y`, `width`, `height`.  The claim requires a validation failure and
no areas added; the code instead succeeds and imports one area with every
missing field coerced to `0`. -/
theorem import_no_field_validation_counterexample :
    handleImportJSON (some (Json.arr [Json.obj []])) =
      Except.ok [⟨Json.num 0, Json.num 0, Json.num 0, Json.num 0⟩] := by
  rfl

/-- C2 (corrected): `handleImportJSON` fails — with a descriptive message
and no areas added, since areas are only handed over on success — exactly
when the file is malformed JSON, the top level is `null` or is neither an
array nor an object whose `excludedAreas` property is an array, or the
imported array contains a `null` element (property access throws).  Missing
or non-numeric `x`, `y`, `width`, `height` fields are NOT validated: absent
or falsy values are coerced to `0` and any other value is imported
unchanged. -/
theorem handleImportJSON_error_characterization (oj : Option Json) :
    (∃ msg, handleImportJSON oj = Except.error msg) ↔
      importRejected oj = true := by
  rcases oj with _ | v
  · simp only [handleImportJSON, importRejected]
    simp
  · cases v with
    | null =>
      simp only [handleImportJSON, importRejected]
      simp
    | bool b =>
      simp only [handleImportJSON, importRejected, getField]
      simp
    | num q =>
      simp only [handleImportJSON, importRejected, getField]
      simp
    | str s =>
      simp only [handleImportJSON, importRejected, getField]
      simp
    | arr elems =>
      simp only [handleImportJSON, importRejected]
      rcases hl : importAreaList elems with _ | areas
      · constructor
        · intro _
          exact (importAreaList_eq_none_iff elems).mp hl
        · intro _
          exact ⟨parseErrorMsg, rfl⟩
      · constructor
        · intro hmsg
          rcases hmsg with ⟨msg, hmsg⟩
          cases hmsg
        · intro hany
          have : importAreaList elems = none :=
            (importAreaList_eq_none_iff elems).mpr hany
          rw [hl] at this
          cases this
    | obj fields =>
      rcases hg : getField (Json.obj fields) "excludedAreas" with _ | ja
      · simp only [handleImportJSON, importRejected, hg]
        simp
      · cases ja with
        | arr elems =>
          simp only [handleImportJSON, importRejected, hg]
          rcases hl : importAreaList elems with _ | areas
          · constructor
            · intro _
              exact (importAreaList_eq_none_iff elems).mp hl
            · intro _
              exact ⟨parseErrorMsg, rfl⟩
          · constructor
            · intro hmsg
              rcases hmsg with ⟨msg, hmsg⟩
              cases hmsg
            · intro hany
              have : importAreaList elems = none :=
                (importAreaList_eq_none_iff elems).mpr hany
              rw [hl] at this
              cases this
        | null =>
          simp only [handleImportJSON, importRejected, hg]
          simp
        | bool b =>
          simp only [handleImportJSON, importRejected, hg]
          simp
        | num q =>
          simp only [handleImportJSON, importRejected, hg]
          simp
        | str s =>
          simp only [handleImportJSON, importRejected, hg]
          simp
        | obj fields2 =>
          simp only [handleImportJSON, importRejected, hg]
          simp

/-! ## C3: the 5-area cap -/

theorem applyAreaOp_nonimport_le_five (s : List ExcludedArea) (op : AreaOp)
    (hop : isImportOp op = false) (h : s.length ≤ 5) :
    (applyAreaOp s op).length ≤ 5 := by
  cases op with
  | add now =>
    simp only [applyAreaOp, handleAddExcludedArea]
    split
    · simp only [List.length_append, List.length_cons, List.length_nil]
      omega
    · exact h
  | remove i =>
    simp only [applyAreaOp, handleRemoveExcludedArea]
    exact le_trans (List.length_filter_le _ _) h
  | change i field v =>
    simp only [applyAreaOp, List.length_map]
    exact h
  | draw i rx ry rw rh =>
    simp only [applyAreaOp, List.length_map]
    exact h
  | importAreas newAreas =>
    cases hop

/-- C3 (corrected): after any sequence of add, remove, field-edit and draw
operations the excluded-area list has at most 5 areas — the add handler is
guarded by `length < 5` and no other non-import operation grows the list.
The bound does NOT survive JSON imports, which append unconditionally. -/
theorem areas_cap_without_import (ops : List AreaOp)
    (h : ∀ op ∈ ops, isImportOp op = false) :
    (ops.foldl applyAreaOp []).length ≤ 5 := by
  suffices hgen : ∀ s : List ExcludedArea, s.length ≤ 5 →
      (∀ op ∈ ops, isImportOp op = false) →
      (ops.foldl applyAreaOp s).length ≤ 5 by
    exact hgen [] (by simp) h
  clear h
  induction ops with
  | nil =>
    intro s hs _
    exact hs
  | cons op ops ih =>
    intro s hs hops
    rw [List.foldl_cons]
    exact ih (applyAreaOp s op)
      (applyAreaOp_nonimport_le_five s op
        (hops op (List.mem_cons_self _ _)) hs)
      (fun o ho => hops o (List.mem_cons_of_mem _ ho))

/-- C3 witness: six adds followed by a remove stay within the cap. -/
theorem areas_cap_without_import_witness :
    (∀ op ∈ [AreaOp.add 1, AreaOp.add 2, AreaOp.add 3, AreaOp.add 4,
        AreaOp.add 5, AreaOp.add 6, AreaOp.remove 1],
      isImportOp op = false) ∧
      (([AreaOp.add 1, AreaOp.add 2, AreaOp.add 3, AreaOp.add 4,
        AreaOp.add 5, AreaOp.add 6,
        AreaOp.remove 1].foldl applyAreaOp []).length ≤ 5) :=
  ⟨by with_unfolding_all decide,
    areas_cap_without_import _ (by with_unfolding_all decide)⟩

/-- C3 counterexample: importing a six-element JSON payload appends all six
areas at once — `handleImportExcludedAreas` enforces no cap — so a session
can hold more than 5 excluded areas. -/
theorem import_exceeds_cap_counterexample :
    ([AreaOp.importAreas [⟨1, 0, 0, 0, 0⟩, ⟨2, 0, 0, 0, 0⟩, ⟨3, 0, 0, 0, 0⟩,
        ⟨4, 0, 0, 0, 0⟩, ⟨5, 0, 0, 0, 0⟩,
        ⟨6, 0, 0, 0, 0⟩]].foldl applyAreaOp []).length = 6 := by
  with_unfolding_all rfl

end PolicyVisualizer
